import Mathlib

/-!
Shallow embedding of the StudySnap quiz session and history store:
the data model (`types.ts`), the persistence layer (`services/storage.ts`),
the quiz-generation client (`services/geminiService.ts`), the session
controller (`App.tsx`) and the hint escalation logic
(`components/QuizCard.tsx`).

localStorage holds one blob under a single key; the blob is either absent,
a serialization of a history (a list of quiz sets), or corrupt (its parse
throws).  We embed it as the inductive `StoredBlob`.  Machine concerns
(JSON text, timestamps as epoch milliseconds) are carried as `Nat`/`String`.
-/

namespace StudySnap

/-- `QuizItem` from `types.ts`.  `generatedHints` is the positional hint
cache (index 0 = level 1, ...); a JS array hole / `undefined` is embedded
as the empty string, which is falsy in JS exactly like `undefined`. -/
structure QuizItem where
  id : String
  question : String
  answer : String
  originalContext : Option String
  generatedHints : List String
deriving DecidableEq, Repr, Inhabited

/-- `QuizSet` from `types.ts`. -/
structure QuizSet where
  id : String
  title : String
  createdAt : Nat
  items : List QuizItem
deriving DecidableEq, Repr, Inhabited

/-- The `AppState` enumeration from `types.ts`. -/
inductive AppState where
  | IDLE
  | PROCESSING
  | QUIZ_ACTIVE
  | COMPLETED
  | ERROR
deriving DecidableEq, Repr, Inhabited

/-- The content stored under `studysnap_history_v1` in localStorage:
nothing stored, a blob that parses to a history, or a corrupt blob whose
`JSON.parse` throws. -/
inductive StoredBlob where
  | empty
  | corrupt
  | valid (history : List QuizSet)
deriving DecidableEq, Repr, Inhabited

/-- `loadHistory` from `storage.ts`: returns the parsed history, `[]` when
nothing is stored, and `[]` (via the `catch`) when parsing throws. -/
def loadHistory : StoredBlob → List QuizSet
  | .empty => []
  | .corrupt => []
  | .valid h => h

/-- `saveQuizSet` from `storage.ts`: read-modify-write; replace in place at
the first index whose `id` matches, else `unshift` (prepend). -/
def saveQuizSet (quizSet : QuizSet) (st : StoredBlob) : StoredBlob :=
  let history := loadHistory st
  match history.findIdx? (fun q => q.id == quizSet.id) with
  | some existingIndex => .valid (history.set existingIndex quizSet)
  | none => .valid (quizSet :: history)

/-- `deleteQuizSet` from `storage.ts`: filter out every entry with the
given id, persist, and return the resulting sequence. -/
def deleteQuizSet (id : String) (st : StoredBlob) : List QuizSet × StoredBlob :=
  let history := (loadHistory st).filter (fun q => q.id != id)
  (history, .valid history)

/-- `updateQuizSetItem` from `storage.ts`: locate the set by `setId` and
the item by `updatedItem.id`; replace in place and persist when both are
found, otherwise leave the stored blob untouched. -/
def updateQuizSetItem (setId : String) (updatedItem : QuizItem) (st : StoredBlob) : StoredBlob :=
  let history := loadHistory st
  match history.findIdx? (fun s => s.id == setId) with
  | none => st
  | some setIndex =>
    let theSet := history.getD setIndex default
    match theSet.items.findIdx? (fun i => i.id == updatedItem.id) with
    | none => st
    | some itemIndex =>
      .valid (history.set setIndex
        { theSet with items := theSet.items.set itemIndex updatedItem })

/-- One raw item of the structured remote response
(`responseSchema.items` in `geminiService.ts`). -/
structure RawItem where
  question : String
  answer : String
  originalContext : Option String
deriving DecidableEq, Repr, Inhabited

/-- The structured remote response (`responseSchema` in
`geminiService.ts`). -/
structure RawQuizData where
  title : String
  items : List RawItem
deriving DecidableEq, Repr, Inhabited

/-- The observable outcomes of the remote `generateContent` call inside
`generateQuizFromImage`: the call throws, it returns no usable text
(`response.text` absent or empty, both falsy), or it returns text that
parses to structured data matching the response schema. -/
inductive RemoteQuizResponse where
  | thrown
  | noText
  | text (data : RawQuizData)
deriving DecidableEq, Repr, Inhabited

/-- `generateQuizFromImage` from `geminiService.ts`, over the observable
remote outcome and the timestamp taken at `Date.now()`.  Items get ids
`q-<timestamp>-<index>` and an empty hint cache; the set gets id
`set-<timestamp>` and the title falls back to `Study Session` when the
returned title is falsy. -/
def generateQuizFromImage (resp : RemoteQuizResponse) (timestamp : Nat) :
    Except String QuizSet :=
  match resp with
  | .thrown => .error "Gemini Quiz Generation Error"
  | .noText => .error "No response text generated."
  | .text data =>
    let items := data.items.enum.map (fun p =>
      { id := "q-" ++ toString timestamp ++ "-" ++ toString p.1
        question := p.2.question
        answer := p.2.answer
        originalContext := p.2.originalContext
        generatedHints := [] : QuizItem })
    .ok { id := "set-" ++ toString timestamp
          title := if data.title == "" then "Study Session" else data.title
          createdAt := timestamp
          items := items }

/-- The generation pipeline of `handleImageSelected` in `App.tsx`: call
`generateQuizFromImage`, then throw when the result has no items; any
error puts the controller in the ERROR state with the message. -/
def handleImageSelectedResult (resp : RemoteQuizResponse) (timestamp : Nat) :
    Except String QuizSet :=
  match generateQuizFromImage resp timestamp with
  | .error e => .error e
  | .ok newQuizSet =>
    if newQuizSet.items.length == 0 then
      .error "NO_ITEMS_GENERATED"
    else
      .ok newQuizSet

/-- The session controller state held by `App` in `App.tsx`. -/
structure SessionState where
  appState : AppState
  currentQuizSet : Option QuizSet
  currentQuestionIndex : Nat
  history : List QuizSet
  error : Option String
deriving DecidableEq, Repr, Inhabited

/-- `handleNextQuestion` from `App.tsx`: with no current set, do nothing;
below the last index, advance by one; otherwise move to COMPLETED. -/
def handleNextQuestion (s : SessionState) : SessionState :=
  match s.currentQuizSet with
  | none => s
  | some qs =>
    if s.currentQuestionIndex < qs.items.length - 1 then
      { s with currentQuestionIndex := s.currentQuestionIndex + 1 }
    else
      { s with appState := .COMPLETED }

/-- `resetApp` from `App.tsx`. -/
def resetApp (s : SessionState) : SessionState :=
  { s with appState := .IDLE
           currentQuizSet := none
           currentQuestionIndex := 0
           error := none }

/-- `handleDeleteHistory` from `App.tsx`: delete from the store and show
the returned sequence as the new history list; nothing else changes. -/
def handleDeleteHistory (id : String) (s : SessionState) (st : StoredBlob) :
    SessionState × StoredBlob :=
  let r := deleteQuizSet id st
  ({ s with history := r.1 }, r.2)

/-- The JS assignment `arr[i] = v` on a copied array: in-bounds writes
replace; out-of-bounds writes extend the array, filling holes (embedded
as `""`, falsy like `undefined`). -/
def jsArraySet (l : List String) (i : Nat) (v : String) : List String :=
  if i < l.length then l.set i v
  else l ++ List.replicate (i - l.length) "" ++ [v]

/-- Result of one press of the hint button: the (possibly updated) item,
the new hint level shown, and whether the remote hint call was made. -/
structure HintResult where
  item : QuizItem
  currentHintLevel : Nat
  remoteCalled : Bool
deriving DecidableEq, Repr

/-- `handleGetHint` from `QuizCard.tsx`, over the current hint level and
the text the remote call would return: past level 3 do nothing; serve a
cached hint without a remote call; otherwise call remote, write the hint
into a copy of the cache and hand the updated item up. -/
def handleGetHint (item : QuizItem) (currentHintLevel : Nat)
    (remoteHint : String) : HintResult :=
  let nextLevel := currentHintLevel + 1
  if nextLevel > 3 then ⟨item, currentHintLevel, false⟩
  else
    let cachedHint := item.generatedHints.getD (nextLevel - 1) ""
    if cachedHint != "" then ⟨item, nextLevel, false⟩
    else
      let newHints := jsArraySet item.generatedHints (nextLevel - 1) remoteHint
      ⟨{ item with generatedHints := newHints }, nextLevel, true⟩

/-! ### Helper lemmas -/

/-- `findIndex` over a list whose `f`-projections are distinct returns the
index of the (unique) element projecting to `x`. -/
theorem findIdx?_eq_some_of_nodup_map {α β : Type} [BEq β] [LawfulBEq β] [Inhabited α]
    (f : α → β) (l : List α) (x : β) (i : Nat)
    (hnodup : (l.map f).Nodup) (hi : i < l.length) (hx : f (l.getD i default) = x) :
    l.findIdx? (fun a => f a == x) = some i := by
  have hgetD : l.getD i default = l[i] := by
    rw [List.getD_eq_getElem?_getD, List.getElem?_eq_getElem hi]
    rfl
  rw [List.findIdx?_eq_some_iff_getElem]
  refine ⟨hi, ?_, ?_⟩
  · simp only [beq_iff_eq]
    rw [← hgetD]
    exact hx
  · intro j hji
    have hj : j < l.length := Nat.lt_trans hji hi
    simp only [beq_iff_eq, Bool.not_eq_true]
    have hne : f l[j] ≠ x := by
      intro hfj
      have hmapj : j < (l.map f).length := by simpa using hj
      have hmapi : i < (l.map f).length := by simpa using hi
      have h1 : (l.map f)[j] = (l.map f)[i] := by
        rw [List.getElem_map, List.getElem_map, hfj, ← hgetD, hx]
      have := (hnodup.getElem_inj_iff).mp h1
      omega
    simpa using hne

/-! ### Claim theorems -/

/-- C2: from QUIZ_ACTIVE with a current set of `n` items, advancing below
the last index increments the index by exactly one and stays QUIZ_ACTIVE
with the set unchanged; advancing at index `n-1` moves to COMPLETED with
the set and index unchanged. -/
theorem handleNextQuestion_spec (s : SessionState) (qs : QuizSet)
    (hset : s.currentQuizSet = some qs) (hactive : s.appState = .QUIZ_ACTIVE) :
    (s.currentQuestionIndex < qs.items.length - 1 →
      (handleNextQuestion s).appState = .QUIZ_ACTIVE ∧
      (handleNextQuestion s).currentQuestionIndex = s.currentQuestionIndex + 1 ∧
      (handleNextQuestion s).currentQuizSet = some qs) ∧
    (s.currentQuestionIndex = qs.items.length - 1 →
      (handleNextQuestion s).appState = .COMPLETED ∧
      (handleNextQuestion s).currentQuizSet = some qs ∧
      (handleNextQuestion s).currentQuestionIndex = s.currentQuestionIndex) := by
  constructor
  · intro h
    simp [handleNextQuestion, hset, if_pos h, hactive]
  · intro h
    have hnot : ¬ (s.currentQuestionIndex < qs.items.length - 1) := by omega
    simp [handleNextQuestion, hset, if_neg hnot]

/-- C7: `loadHistory` returns the persisted sequence when the blob parses,
and the empty sequence when nothing is stored or parsing fails; it is a
total function of the stored blob — no failure reaches the caller. -/
theorem loadHistory_spec :
    (∀ h : List QuizSet, loadHistory (.valid h) = h) ∧
    loadHistory .empty = [] ∧
    loadHistory .corrupt = [] :=
  ⟨fun _ => rfl, rfl, rfl⟩

/-- C9: deleting a history entry only replaces the displayed history list
(afterwards free of the deleted id) and the stored blob; `currentQuizSet`,
`currentQuestionIndex`, `appState` and `error` are untouched, for every
session state — in particular when the deleted id is the active set's. -/
theorem handleDeleteHistory_spec (id : String) (s : SessionState) (st : StoredBlob) :
    (handleDeleteHistory id s st).1.currentQuizSet = s.currentQuizSet ∧
    (handleDeleteHistory id s st).1.currentQuestionIndex = s.currentQuestionIndex ∧
    (handleDeleteHistory id s st).1.appState = s.appState ∧
    (handleDeleteHistory id s st).1.error = s.error ∧
    (handleDeleteHistory id s st).1.history.all (fun q => q.id != id) = true := by
  refine ⟨rfl, rfl, rfl, rfl, ?_⟩
  simp only [handleDeleteHistory, deleteQuizSet, List.all_eq_true]
  intro q hq
  exact (List.mem_filter.mp hq).2

/-- C10: `resetApp` from any session state yields IDLE with no current
set, index zero and the error cleared, leaving the history list as is. -/
theorem resetApp_spec (s : SessionState) :
    (resetApp s).appState = .IDLE ∧
    (resetApp s).currentQuizSet = none ∧
    (resetApp s).currentQuestionIndex = 0 ∧
    (resetApp s).error = none ∧
    (resetApp s).history = s.history :=
  ⟨rfl, rfl, rfl, rfl, rfl⟩

/-- C1: the generation pipeline (remote call plus the zero-items guard in
`handleImageSelected`) either yields a quiz set with at least one item or
fails: no usable text, a thrown remote call, and a structured result with
zero items each propagate an error instead of an empty quiz. -/
theorem handleImageSelected_generation_spec (resp : RemoteQuizResponse) (timestamp : Nat) :
    (∀ s : QuizSet, handleImageSelectedResult resp timestamp = .ok s → 0 < s.items.length) ∧
    (resp = .noText →
      handleImageSelectedResult resp timestamp = .error "No response text generated.") ∧
    (resp = .thrown → ∃ e, handleImageSelectedResult resp timestamp = .error e) ∧
    (∀ data, resp = .text data → data.items = [] →
      ∃ e, handleImageSelectedResult resp timestamp = .error e) := by
  refine ⟨?_, ?_, ?_, ?_⟩
  · intro s hs
    cases resp with
    | thrown => simp [handleImageSelectedResult, generateQuizFromImage] at hs
    | noText => simp [handleImageSelectedResult, generateQuizFromImage] at hs
    | text data =>
      simp only [handleImageSelectedResult, generateQuizFromImage] at hs
      split at hs
      · cases hs
      · next hcond =>
        cases hs
        simp only [beq_iff_eq, List.length_map, List.enum_length] at hcond ⊢
        omega
  · intro h
    subst h
    rfl
  · intro h
    subst h
    exact ⟨_, rfl⟩
  · intro data hresp hitems
    subst hresp
    refine ⟨"NO_ITEMS_GENERATED", ?_⟩
    simp [handleImageSelectedResult, generateQuizFromImage, hitems]

/-- C1 witness: the no-text outcome propagates the error. -/
theorem handleImageSelected_generation_spec_witness :
    handleImageSelectedResult .noText 0 = .error "No response text generated." :=
  (handleImageSelected_generation_spec .noText 0).2.1 rfl

/-- C3: saving a set whose id is absent from the persisted history
prepends it: the reloaded history is the new set followed by the previous
entries in their original order, one entry longer. -/
theorem saveQuizSet_new_spec (S : QuizSet) (st : StoredBlob)
    (hnew : ∀ q ∈ loadHistory st, q.id ≠ S.id) :
    loadHistory (saveQuizSet S st) = S :: loadHistory st ∧
    (loadHistory (saveQuizSet S st)).length = (loadHistory st).length + 1 := by
  have hfind : (loadHistory st).findIdx? (fun q => q.id == S.id) = none := by
    rw [List.findIdx?_eq_none_iff]
    intro x hx
    simpa using hnew x hx
  have h1 : loadHistory (saveQuizSet S st) = S :: loadHistory st := by
    simp only [saveQuizSet, hfind]
    rfl
  exact ⟨h1, by rw [h1]; rfl⟩

/-- C8: when the hint for level `k` is already cached, escalating to
level `k` makes no remote call and leaves the item (and its cache)
unchanged; only the shown level moves to `k`. -/
theorem handleGetHint_cached_spec (item : QuizItem) (k : Nat) (remoteHint : String)
    (hk1 : 1 ≤ k) (hk3 : k ≤ 3)
    (hcached : item.generatedHints.getD (k - 1) "" ≠ "") :
    handleGetHint item (k - 1) remoteHint = ⟨item, k, false⟩ := by
  have h2 : k - 1 + 1 = k := by omega
  simp only [handleGetHint, h2]
  rw [if_neg (by omega : ¬ k > 3), if_pos (bne_iff_ne.mpr hcached)]

/-- Removing the unique element with id `X` from a history with distinct
ids shortens it by exactly one. -/
theorem length_filter_ne_of_mem_nodup (X : String) :
    ∀ H : List QuizSet, (H.map QuizSet.id).Nodup →
      (∃ q ∈ H, q.id = X) →
      (H.filter (fun a => a.id != X)).length + 1 = H.length := by
  intro H
  induction H with
  | nil =>
    intro _ hmem
    rcases hmem with ⟨q, hq, _⟩
    cases hq
  | cons a t ih =>
    intro hnodup hmem
    rw [List.map_cons, List.nodup_cons] at hnodup
    obtain ⟨ha, ht⟩ := hnodup
    rcases hmem with ⟨q, hq, hqX⟩
    rcases List.mem_cons.mp hq with h | h
    · subst h
      have hfa : (q.id != X) = false := by simp [hqX]
      have htfilter : t.filter (fun b => b.id != X) = t := by
        rw [List.filter_eq_self]
        intro b hb
        simp only [bne_iff_ne, ne_eq]
        intro hbX
        exact ha (List.mem_map.mpr ⟨b, hb, by rw [hbX, hqX]⟩)
      simp [List.filter_cons, hfa, htfilter]
    · have haX : (a.id != X) = true := by
        simp only [bne_iff_ne, ne_eq]
        intro haX
        exact ha (List.mem_map.mpr ⟨q, h, by rw [hqX, haX]⟩)
      simp only [List.filter_cons, haX, if_pos, List.length_cons]
      rw [← ih ht ⟨q, h, hqX⟩]

/-- C5: `deleteQuizSet` persists exactly the sequence it returns, that
sequence holds no entry with the deleted id, its length drops by one when
the id was present (ids unique) and is unchanged when it was absent. -/
theorem deleteQuizSet_spec (X : String) (st : StoredBlob)
    (hnodup : ((loadHistory st).map QuizSet.id).Nodup) :
    loadHistory (deleteQuizSet X st).2 = (deleteQuizSet X st).1 ∧
    (deleteQuizSet X st).1.all (fun q => q.id != X) = true ∧
    ((∃ q ∈ loadHistory st, q.id = X) →
      (deleteQuizSet X st).1.length + 1 = (loadHistory st).length) ∧
    ((∀ q ∈ loadHistory st, q.id ≠ X) →
      (deleteQuizSet X st).1 = loadHistory st) := by
  refine ⟨rfl, ?_, ?_, ?_⟩
  · simp only [deleteQuizSet, List.all_eq_true]
    intro q hq
    exact (List.mem_filter.mp hq).2
  · intro hmem
    exact length_filter_ne_of_mem_nodup X (loadHistory st) hnodup hmem
  · intro hnone
    simp only [deleteQuizSet]
    rw [List.filter_eq_self]
    intro q hq
    simpa using hnone q hq

/-- C4: saving a set whose id already occurs in the history (ids unique)
replaces that entry in place: same length, the entry at its original
position becomes the new value, and every other position is unchanged. -/
theorem saveQuizSet_existing_spec (S : QuizSet) (st : StoredBlob) (i : Nat)
    (hnodup : ((loadHistory st).map QuizSet.id).Nodup)
    (hi : i < (loadHistory st).length)
    (hid : ((loadHistory st).getD i default).id = S.id) :
    loadHistory (saveQuizSet S st) = (loadHistory st).set i S ∧
    (loadHistory (saveQuizSet S st)).length = (loadHistory st).length ∧
    (loadHistory (saveQuizSet S st)).getD i default = S ∧
    ∀ j, j ≠ i →
      (loadHistory (saveQuizSet S st)).getD j default = (loadHistory st).getD j default := by
  have hfind := findIdx?_eq_some_of_nodup_map QuizSet.id (loadHistory st) S.id i hnodup hi hid
  have h1 : loadHistory (saveQuizSet S st) = (loadHistory st).set i S := by
    simp only [saveQuizSet, hfind]
    rfl
  refine ⟨h1, by rw [h1]; simp, ?_, ?_⟩
  · rw [h1, List.getD_eq_getElem?_getD, List.getElem?_set_self hi]
    rfl
  · intro j hj
    rw [h1, List.getD_eq_getElem?_getD, List.getD_eq_getElem?_getD,
      List.getElem?_set_ne (Ne.symm hj)]

/-- C6: `updateQuizSetItem` with both lookups succeeding (ids unique)
replaces exactly the addressed item of the addressed set in the persisted
history; when the set id is absent, or the set is found but the item id is
absent, the stored blob is returned untouched. -/
theorem updateQuizSetItem_spec (setId : String) (item : QuizItem) (st : StoredBlob) :
    (∀ si ii,
      ((loadHistory st).map QuizSet.id).Nodup →
      si < (loadHistory st).length →
      ((loadHistory st).getD si default).id = setId →
      (((loadHistory st).getD si default).items.map QuizItem.id).Nodup →
      ii < ((loadHistory st).getD si default).items.length →
      (((loadHistory st).getD si default).items.getD ii default).id = item.id →
      loadHistory (updateQuizSetItem setId item st) =
        (loadHistory st).set si
          { (loadHistory st).getD si default with
            items := ((loadHistory st).getD si default).items.set ii item }) ∧
    ((∀ q ∈ loadHistory st, q.id ≠ setId) →
      updateQuizSetItem setId item st = st) ∧
    (∀ si,
      ((loadHistory st).map QuizSet.id).Nodup →
      si < (loadHistory st).length →
      ((loadHistory st).getD si default).id = setId →
      (∀ it ∈ ((loadHistory st).getD si default).items, it.id ≠ item.id) →
      updateQuizSetItem setId item st = st) := by
  refine ⟨?_, ?_, ?_⟩
  · intro si ii hsnodup hsi hsid hinodup hii hiid
    have hfs := findIdx?_eq_some_of_nodup_map QuizSet.id (loadHistory st) setId si hsnodup hsi hsid
    have hfi := findIdx?_eq_some_of_nodup_map QuizItem.id
      ((loadHistory st).getD si default).items item.id ii hinodup hii hiid
    simp only [updateQuizSetItem, hfs, hfi]
    rfl
  · intro hnone
    have hfs : (loadHistory st).findIdx? (fun s => s.id == setId) = none := by
      rw [List.findIdx?_eq_none_iff]
      intro x hx
      simpa using hnone x hx
    simp only [updateQuizSetItem, hfs]
  · intro si hsnodup hsi hsid hnone
    have hfs := findIdx?_eq_some_of_nodup_map QuizSet.id (loadHistory st) setId si hsnodup hsi hsid
    have hfi : ((loadHistory st).getD si default).items.findIdx?
        (fun i => i.id == item.id) = none := by
      rw [List.findIdx?_eq_none_iff]
      intro x hx
      simpa using hnone x hx
    simp only [updateQuizSetItem, hfs, hfi]

/-! ### Concrete fixtures for witnesses -/

/-- A concrete quiz item used by witnesses. -/
def itemA : QuizItem :=
  { id := "q-1-0", question := "Q1", answer := "A1"
    originalContext := none, generatedHints := [] }

/-- A concrete quiz item with a cached level-1 hint. -/
def itemHinted : QuizItem :=
  { id := "q-2-0", question := "Q2", answer := "A2"
    originalContext := some "ctx", generatedHints := ["h1"] }

/-- A concrete quiz set with id `set-1`. -/
def setA : QuizSet :=
  { id := "set-1", title := "Alpha", createdAt := 1, items := [itemA] }

/-- A concrete quiz set with id `set-2`. -/
def setB : QuizSet :=
  { id := "set-2", title := "Beta", createdAt := 2, items := [itemA, itemHinted] }

/-- A replacement value carrying `set-2`. -/
def setB2 : QuizSet :=
  { id := "set-2", title := "Beta v2", createdAt := 2, items := [itemHinted] }

/-- A concrete active session on `setB`. -/
def activeS : SessionState :=
  { appState := .QUIZ_ACTIVE, currentQuizSet := some setB
    currentQuestionIndex := 0, history := [setA, setB], error := none }

/-- C2 witness: on the two-item set at index 0, advance stays active and
moves to index 1 with the set unchanged. -/
theorem handleNextQuestion_spec_witness :
    (handleNextQuestion activeS).appState = .QUIZ_ACTIVE ∧
    (handleNextQuestion activeS).currentQuestionIndex = activeS.currentQuestionIndex + 1 ∧
    (handleNextQuestion activeS).currentQuizSet = some setB :=
  (handleNextQuestion_spec activeS setB rfl rfl).1 (by decide)

/-- C3 witness: saving `setB` over a history holding only `setA`. -/
theorem saveQuizSet_new_spec_witness :
    loadHistory (saveQuizSet setB (.valid [setA])) = setB :: loadHistory (.valid [setA]) ∧
    (loadHistory (saveQuizSet setB (.valid [setA]))).length =
      (loadHistory (.valid [setA])).length + 1 :=
  saveQuizSet_new_spec setB (.valid [setA]) (by decide)

/-- C8 witness: level 1 already cached on `itemHinted`. -/
theorem handleGetHint_cached_spec_witness :
    handleGetHint itemHinted 0 "fresh" = ⟨itemHinted, 1, false⟩ :=
  handleGetHint_cached_spec itemHinted 1 "fresh" (by decide) (by decide) (by decide)

/-- C4 witness: saving a new value for `set-2` over `[setA, setB]`. -/
theorem saveQuizSet_existing_spec_witness :
    loadHistory (saveQuizSet setB2 (.valid [setA, setB])) =
      (loadHistory (.valid [setA, setB])).set 1 setB2 ∧
    (loadHistory (saveQuizSet setB2 (.valid [setA, setB]))).length =
      (loadHistory (.valid [setA, setB])).length ∧
    (loadHistory (saveQuizSet setB2 (.valid [setA, setB]))).getD 1 default = setB2 ∧
    ∀ j, j ≠ 1 →
      (loadHistory (saveQuizSet setB2 (.valid [setA, setB]))).getD j default =
        (loadHistory (.valid [setA, setB])).getD j default :=
  saveQuizSet_existing_spec setB2 (.valid [setA, setB]) 1 (by decide) (by decide) (by decide)

/-- C5 witness: deleting `set-1` from `[setA, setB]`. -/
theorem deleteQuizSet_spec_witness :
    loadHistory (deleteQuizSet "set-1" (.valid [setA, setB])).2 =
      (deleteQuizSet "set-1" (.valid [setA, setB])).1 ∧
    (deleteQuizSet "set-1" (.valid [setA, setB])).1.all (fun q => q.id != "set-1") = true ∧
    ((∃ q ∈ loadHistory (.valid [setA, setB]), q.id = "set-1") →
      (deleteQuizSet "set-1" (.valid [setA, setB])).1.length + 1 =
        (loadHistory (.valid [setA, setB])).length) ∧
    ((∀ q ∈ loadHistory (.valid [setA, setB]), q.id ≠ "set-1") →
      (deleteQuizSet "set-1" (.valid [setA, setB])).1 =
        loadHistory (.valid [setA, setB])) :=
  deleteQuizSet_spec "set-1" (.valid [setA, setB]) (by decide)

/-- A replacement item carrying the id of `itemHinted`. -/
def itemHinted2 : QuizItem :=
  { id := "q-2-0", question := "Q2x", answer := "A2x"
    originalContext := none, generatedHints := [] }

/-- C6 witness: replacing item `q-2-0` inside set `set-2`. -/
theorem updateQuizSetItem_spec_witness :
    loadHistory (updateQuizSetItem "set-2" itemHinted2 (.valid [setB])) =
      (loadHistory (.valid [setB])).set 0
        { (loadHistory (.valid [setB])).getD 0 default with
          items := ((loadHistory (.valid [setB])).getD 0 default).items.set 1 itemHinted2 } :=
  (updateQuizSetItem_spec "set-2" itemHinted2 (.valid [setB])).1 0 1
    (by decide) (by decide) (by decide) (by decide) (by decide) (by decide)

end StudySnap
